/-
Verification of the servemd request-resolution and response-caching
pipeline.  The Go sources (fasthttp variant of server.go together with
the handler constructors) are shallowly embedded: the filesystem, the
MD5 digest, the Markdown/template/pug renderers and the clock are
abstract parameters (an `Env`), while the Go string and path helpers
(strings.Split, strings.TrimSuffix, filepath.Ext/Base/Dir/Join/Clean,
strings.HasSuffix, strings.TrimSpace, strings.Trim) are implemented
concretely over character lists.
-/
import Mathlib

set_option maxHeartbeats 1000000

/-! ## Go string primitives -/

/-- strings.Split with a one-character separator, over character lists.
Always returns at least one (possibly empty) piece. -/
def splitChar (sep : Char) : List Char → List (List Char)
  | [] => [[]]
  | c :: rest =>
    if c = sep then [] :: splitChar sep rest
    else
      match splitChar sep rest with
      | [] => [[c]]
      | h :: t => (c :: h) :: t

/-- strings.Split with a one-character separator, on strings. -/
def goSplit (s : String) (sep : Char) : List String :=
  (splitChar sep s.data).map String.mk

/-- Break a character list at the first occurrence of `sep`
(the pieces before and after it), or `none` if absent. -/
def breakAt (sep : Char) : List Char → Option (List Char × List Char)
  | [] => none
  | c :: rest =>
    if c = sep then some ([], rest)
    else
      match breakAt sep rest with
      | none => none
      | some (a, b) => some (c :: a, b)

/-- strings.SplitN with count 2 and a one-character separator:
either `[s]` (separator absent) or the pieces before and after the
first separator. -/
def splitN2 (s : String) (sep : Char) : List String :=
  match breakAt sep s.data with
  | none => [s]
  | some (a, b) => [String.mk a, String.mk b]

/-- strings.Join. -/
def strJoin (sep : String) : List String → String
  | [] => ""
  | [x] => x
  | x :: y :: rest => x ++ sep ++ strJoin sep (y :: rest)

/-- strings.HasSuffix: the last `len(suffix)` characters of `s` equal
`suffix`. -/
def hasSuffix (s suffix : String) : Bool :=
  if suffix.data.length ≤ s.data.length then
    s.data.drop (s.data.length - suffix.data.length) == suffix.data
  else false

/-- strings.TrimSuffix: remove `suffix` from the end of `s` when present. -/
def trimSuffix (s suffix : String) : String :=
  if hasSuffix s suffix = true then
    String.mk (s.data.take (s.data.length - suffix.data.length))
  else s

/-- Drop characters satisfying `p` from the right end. -/
def trimRightIf (p : Char → Bool) (l : List Char) : List Char :=
  (l.reverse.dropWhile p).reverse

/-- Drop characters satisfying `p` from both ends. -/
def trimIf (p : Char → Bool) (l : List Char) : List Char :=
  trimRightIf p (l.dropWhile p)

/-- ASCII whitespace, as trimmed by strings.TrimSpace. -/
def isSpaceGo (c : Char) : Bool :=
  c = ' ' || c = '\t' || c = '\n' || c = '\x0b' || c = '\x0c' || c = '\r'

/-- strings.TrimSpace. -/
def trimSpace (s : String) : String := String.mk (trimIf isSpaceGo s.data)

/-- Membership in the cutset of strings.Trim(s, quote-space) used by
parseHeader. -/
def isQuoteSpace (c : Char) : Bool := c = '"' || c = ' '

/-- strings.Trim with the quote-space cutset. -/
def trimCut (s : String) : String := String.mk (trimIf isQuoteSpace s.data)

/-! ## Go path/filepath primitives (unix rules) -/

/-- Index of the last occurrence of `c` in `l`. -/
def lastIdxOf (c : Char) : List Char → Option Nat
  | [] => none
  | x :: rest =>
    match lastIdxOf c rest with
    | some i => some (i + 1)
    | none => if x = c then some 0 else none

/-- Component stack of filepath.Clean: empty and dot components vanish,
dot-dot pops a previous component (or is kept at the front of a
relative path, or vanishes at the root of a rooted path).  The result
is in reverse order. -/
def cleanStack (rooted : Bool) (comps : List (List Char)) : List (List Char) :=
  comps.foldl (fun stack comp =>
    if comp = [] ∨ comp = ['.'] then stack
    else if comp = ['.', '.'] then
      match stack with
      | [] => if rooted then [] else [['.', '.']]
      | top :: rest => if top = ['.', '.'] then comp :: stack else rest
    else comp :: stack) []

/-- filepath.Clean. -/
def goClean (path : String) : String :=
  if path = "" then "."
  else
    let rooted := path.data.head? = some '/'
    let comps := splitChar '/' path.data
    let stack := (cleanStack rooted comps).reverse
    let joined := strJoin "/" (stack.map String.mk)
    let out := (if rooted then "/" else "") ++ joined
    if out = "" then "." else out

/-- filepath.Join of two elements: empty elements are skipped, the rest
are joined with a separator and cleaned. -/
def goJoin (a b : String) : String :=
  if a = "" ∧ b = "" then ""
  else if a = "" then goClean b
  else if b = "" then goClean a
  else goClean (a ++ "/" ++ b)

/-- filepath.Dir: everything up to and including the final separator,
cleaned ("." when there is no separator). -/
def goDir (path : String) : String :=
  match lastIdxOf '/' path.data with
  | none => goClean ""
  | some i => goClean (String.mk (path.data.take (i + 1)))

/-- filepath.Base: the last element of the path, after stripping
trailing separators ("." for the empty path, "/" when the path is all
separators). -/
def goBase (path : String) : String :=
  if path = "" then "."
  else
    let p := (path.data.reverse.dropWhile (fun c => c = '/')).reverse
    if p = [] then "/"
    else
      match lastIdxOf '/' p with
      | none => String.mk p
      | some i => String.mk (p.drop (i + 1))

/-- Scanner of filepath.Ext over the reversed character list: collect
characters until the final dot (returning the extension including the
dot), stopping without an extension at a separator or at the start. -/
def extFromRev (acc : List Char) : List Char → Option (List Char)
  | [] => none
  | c :: rest =>
    if c = '/' then none
    else if c = '.' then some (c :: acc)
    else extFromRev (c :: acc) rest

/-- filepath.Ext: the suffix beginning at the final dot in the final
slash-separated element, empty when there is no dot. -/
def goExt (path : String) : String :=
  match extFromRev [] path.data.reverse with
  | some ext => String.mk ext
  | none => ""

/-! ## Data model -/

/-- A directory entry as reported by ioutil.ReadDir: a name and whether
the entry is a directory. -/
structure Entry where
  name : String
  isDir : Bool
deriving DecidableEq

/-- The filesystem, abstracted: os.Readlink (some target when the path
is a symbolic link), os.Stat (some isDir when the path exists),
ioutil.ReadDir (some listing when the directory is readable) and
ioutil.ReadFile (the contents, or an error message). -/
structure FS where
  readlink : String → Option String
  statIsDir : String → Option Bool
  readDir : String → Option (List Entry)
  readFile : String → Except String String

/-- A bytes.Reader: backing data and a cursor position. -/
structure ByteReader where
  data : String
  pos : Nat
deriving DecidableEq

/-- rd.Seek(0, 0). -/
def ByteReader.seekStart (r : ByteReader) : ByteReader :=
  { data := r.data, pos := 0 }

/-- rd.WriteTo(w): emit everything from the cursor on and leave the
cursor at the end. -/
def ByteReader.writeTo (r : ByteReader) : String × ByteReader :=
  (String.mk (r.data.data.drop r.pos), { data := r.data, pos := r.data.data.length })

/-- The response handlers built by the server (the closures stored in
the cache): a literal file streamed from disk, a reader over rendered
bytes, a permanent redirect from a .redirect file, the trailing-slash
directory redirect closure, not-found, and internal-error. -/
inductive Handler where
  | literalFile (path : String)
  | reader (ident : String) (rd : ByteReader)
  | redirect (url : String)
  | dirRedirect (target : String)
  | notFound
  | internalError (msg : String)
deriving DecidableEq

/-- The observable parts of one HTTP response. -/
structure Response where
  status : Nat
  body : String
  contentType : Option String
  location : Option String
  wwwAuthenticate : Option String
deriving DecidableEq

/-- The server configuration (struct server of the fasthttp variant;
the template lives in the environment, certificate and key are not
used by the request pipeline). -/
structure Server where
  path : String
  port : String
  host : String
  secret : List (String × String)
  ttl : Option Int
  cache : Option (String → Option Handler)
  tlsPort : String
  tlsRequired : Nat

/-- tls.required value requiredNone. -/
def requiredNone : Nat := 0
/-- tls.required value requiredSecrets. -/
def requiredSecrets : Nat := 1
/-- tls.required value requiredAll. -/
def requiredAll : Nat := 2

/-- The abstract collaborators of one request: the filesystem, the MD5
hex digest, blackfriday.MarkdownCommon, the Markdown template
(content in, rendered page out), jade.ParseFile (reads the named file
itself), mime.TypeByExtension, and the %x-formatted current time used
for challenge nonces. -/
structure Env where
  fs : FS
  md5hex : String → String
  markdown : String → String
  template : String → String
  jade : String → Except String String
  mime : String → String
  nowHex : String

/-- The parts of a fasthttp.RequestCtx the pipeline reads. -/
structure Request where
  path : String
  method : String
  authorization : String
  isTLS : Bool

/-- How one request terminates: a TLS see-other redirect, a Digest
challenge, a cache hit serving a stored handler, or a freshly built
handler. -/
inductive Outcome where
  | tlsRedirect (target : String)
  | challenge (header : String)
  | fromCache (h : Handler)
  | fresh (h : Handler)
deriving DecidableEq

/-! ## Handler constructors and invocation -/

/-- handlerLiteralFile. -/
def handlerLiteralFile (path : String) : Handler := Handler.literalFile path

/-- handlerReader. -/
def handlerReader (ident : String) (rd : ByteReader) : Handler := Handler.reader ident rd

/-- handlerRedirect: the URL is trimmed once, at construction time. -/
def handlerRedirect (url : String) : Handler := Handler.redirect (trimSpace url)

/-- handlerNotFound. -/
def handlerNotFound : Handler := Handler.notFound

/-- handlerInternalError. -/
def handlerInternalError (msg : String) : Handler := Handler.internalError msg

/-- Invoking a handler: the response it writes and the handler state
afterwards (the reader-backed handler mutates its bytes.Reader; all
others are stateless). -/
def Handler.invoke (env : Env) : Handler → Response × Handler
  | .literalFile p =>
    let mt := env.mime (goExt p)
    ({ status := 200,
       body := (match env.fs.readFile p with | .ok c => c | .error _ => ""),
       contentType := if mt = "" then none else some mt,
       location := none, wwwAuthenticate := none }, .literalFile p)
  | .reader ident rd =>
    let r1 := rd.seekStart
    let out := r1.writeTo
    ({ status := 200, body := out.1,
       contentType := some "text/html; charset=utf-8",
       location := none, wwwAuthenticate := none }, .reader ident out.2)
  | .redirect url =>
    ({ status := 308, body := "", contentType := none,
       location := some url, wwwAuthenticate := none }, .redirect url)
  | .dirRedirect target =>
    ({ status := 301, body := "", contentType := none,
       location := some target, wwwAuthenticate := none }, .dirRedirect target)
  | .notFound =>
    ({ status := 404, body := "Not Found", contentType := none,
       location := none, wwwAuthenticate := none }, .notFound)
  | .internalError msg =>
    ({ status := 500, body := msg, contentType := none,
       location := none, wwwAuthenticate := none }, .internalError msg)

/-! ## Digest authentication -/

/-- parseHeader: fold comma-separated key=value pairs (pairs without
an equals sign are skipped) into a lookup function, later pairs
overriding earlier ones, keys and values trimmed of quotes and
spaces; absent keys give the empty string, as a Go map does. -/
def parseHeader (s : String) : String → String :=
  (goSplit s ',').foldl (fun m kv =>
    match splitN2 kv '=' with
    | [k, v] => fun key => if key = trimCut k then trimCut v else m key
    | _ => m) (fun _ => "")

/-- Lookup of a route in the secret map. -/
def lookupSecret (s : Server) (route : String) : Option String :=
  List.lookup route s.secret

/-- Go map indexing s.secret[route]: the zero value for absent keys. -/
def lookupSecretD (s : Server) (route : String) : String :=
  (lookupSecret s route).getD ""

/-- Digest verification of checkAuth once the scheme check passed,
over the parameter part of the Authorization header: require the realm
to be host-route and the response digest to match
MD5(HA1:nonce:nc:cnonce:qop:HA2) for the route secret. -/
def digestOK (md5hex : String → String) (s : Server)
    (rest method pathStr route : String) : Bool :=
  let digest := parseHeader rest
  let realm := s.host ++ "-" ++ route
  if digest "realm" ≠ realm then false
  else
    let nonce := digest "nonce"
    let nc := digest "nc"
    let cnonce := digest "cnonce"
    let qop := digest "qop"
    let ha1 := md5hex (digest "username" ++ ":" ++ realm ++ ":" ++ lookupSecretD s route)
    let ha2 := md5hex (method ++ ":" ++ pathStr)
    let sd := strJoin ":" [ha1, nonce, nc, cnonce, qop, ha2]
    md5hex sd == digest "response"

/-- checkAuth: split the Authorization header at the first space; fail
unless there are two pieces and the first is "Digest"; then verify the
digest parameters. -/
def checkAuth (md5hex : String → String) (s : Server)
    (auth method pathStr route : String) : Bool :=
  let hs := splitN2 auth ' '
  if hs.length ≠ 2 ∨ hs.headD "" ≠ "Digest" then false
  else digestOK md5hex s (hs.getD 1 "") method pathStr route

/-- sendChallenge's WWW-Authenticate value: realm, qop and a nonce from
the %x-formatted current time, comma-joined after the scheme. -/
def challengeHeader (s : Server) (nowHex route : String) : String :=
  let realm := "realm=\"" ++ s.host ++ "-" ++ route ++ "\""
  let qop := "qop=\"auth,auth-int\""
  let nonce := "nonce=\"" ++ nowHex ++ "\""
  "Digest " ++ strJoin ", " [realm, qop, nonce]

/-! ## TLS policy -/

/-- checkTLSRedirect fires exactly when the configured requirement
equals the probed condition and the request is not already on TLS. -/
def checkTLSRedirectFires (s : Server) (isTLS : Bool) (cond : Nat) : Bool :=
  if s.tlsRequired ≠ cond ∨ isTLS = true then false else true

/-- The redirect target of a fired TLS redirect. -/
def tlsTarget (s : Server) (pathStr : String) : String :=
  "https://" ++ s.host ++ pathStr

/-! ## Path resolution (ServeHTTP, fasthttp variant) -/

/-- The loop over a directory listing looking for the first
non-directory entry whose name with its (last) extension stripped
equals `name` (the "find first file matching name.*" loop). -/
def findFirstMatch (files : List Entry) (name : String) : Option String :=
  match files with
  | [] => none
  | e :: rest =>
    if e.isDir = true then findFirstMatch rest name
    else if trimSuffix e.name (goExt e.name) = name then some e.name
    else findFirstMatch rest name

/-- serveFilteredFile: dispatch on the filename suffix.  For .md, read
and render Markdown through the template into a reader handler (or an
internal-error handler on read failure); for .jade/.pug, run the jade
renderer (internal-error on failure); for .redirect, read the target
URL — on read failure the source first assigns the internal-error
handler but then unconditionally overwrites it with a redirect handler
for the empty string; anything else is served literally. -/
def serveFilteredFile (env : Env) (filename : String) : Handler :=
  if hasSuffix filename ".md" = true then
    match env.fs.readFile filename with
    | .error e => handlerInternalError e
    | .ok md =>
      let out := env.markdown md
      let buf := env.template out
      handlerReader ("markdown " ++ filename) (ByteReader.mk buf 0)
  else if hasSuffix filename ".jade" = true ∨ hasSuffix filename ".pug" = true then
    match env.jade filename with
    | .error e => handlerInternalError e
    | .ok out => handlerReader ("pug " ++ filename) (ByteReader.mk out 0)
  else if hasSuffix filename ".redirect" = true then
    match env.fs.readFile filename with
    | .error _ => handlerRedirect ""
    | .ok url => handlerRedirect url
  else
    handlerLiteralFile filename

/-- The candidate filesystem path: the root joined with the request
path, replaced by the link target when it is a symbolic link
(single-level resolution). -/
def candidatePath (env : Env) (s : Server) (pathStr : String) : String :=
  let p := goJoin s.path pathStr
  match env.fs.readlink p with
  | some link => link
  | none => p

/-- Directory-index search of ServeHTTP: list the directory (a failed
listing is used as an empty one — the error is discarded), then look
for the first non-directory entry matching index.*; not-found when
there is none. -/
def resolveIndex (env : Env) (path : String) : Handler :=
  let files := (env.fs.readDir path).getD []
  match findFirstMatch files "index" with
  | some fname => serveFilteredFile env (goJoin path fname)
  | none => handlerNotFound

/-- After the implicit-match scan found nothing: not-found when the
candidate does not stat; otherwise it is a directory — redirect to the
request path with a trailing separator when it lacks one, else serve
the directory index. -/
def resolveStat2 (env : Env) (pathStr path : String) : Handler :=
  match env.fs.statIsDir path with
  | none => handlerNotFound
  | some _ =>
    if hasSuffix pathStr "/" = false then
      Handler.dirRedirect (pathStr ++ "/")
    else resolveIndex env path

/-- The non-literal tail of resolution: list the candidate's parent
directory (not-found if that fails), scan for the first
extension-implicit match of the candidate's base name, and otherwise
fall through to the directory logic. -/
def resolveDir (env : Env) (pathStr path : String) : Handler :=
  match env.fs.readDir (goDir path) with
  | none => handlerNotFound
  | some files =>
    match findFirstMatch files (goBase path) with
    | some fname => serveFilteredFile env (goJoin (goDir path) fname)
    | none => resolveStat2 env pathStr path

/-- The resolution part of ServeHTTP (everything after the cache
lookup): serve the candidate literally when it stats as a regular
file, else continue with the directory logic. -/
def resolve (env : Env) (s : Server) (pathStr : String) : Handler :=
  if env.fs.statIsDir (candidatePath env s pathStr) = some false then
    handlerLiteralFile (candidatePath env s pathStr)
  else
    resolveDir env pathStr (candidatePath env s pathStr)

/-! ## The request pipeline -/

/-- The route-secrecy and authentication gate of ServeHTTP: only paths
longer than one character are examined; the route is the second piece
of the path split on separators; for a secret route, first the
secrets-level TLS redirect, then Digest authentication with a
challenge on failure.  `none` means the request proceeds. -/
def authGate (env : Env) (s : Server) (req : Request) : Option Outcome :=
  if 1 < req.path.length then
    match goSplit req.path '/' with
    | _ :: route :: _ =>
      if (lookupSecret s route).isSome = true then
        if checkTLSRedirectFires s req.isTLS requiredSecrets = true then
          some (Outcome.tlsRedirect (tlsTarget s req.path))
        else if checkAuth env.md5hex s req.authorization req.method req.path route = true then
          none
        else
          some (Outcome.challenge (challengeHeader s env.nowHex route))
      else none
    | _ => none
  else none

/-- Cache lookup: a nil cache never hits. -/
def cacheGet (s : Server) (p : String) : Option Handler :=
  match s.cache with
  | some m => m p
  | none => none

/-- The pipeline after the TLS and auth gates: serve from the cache on
a hit; otherwise resolve the path, and store the resulting handler
under the request path when the cache is enabled.  The second
component is the cache store performed. -/
def servePostAuth (env : Env) (s : Server) (req : Request) :
    Outcome × Option (String × Handler) :=
  match cacheGet s req.path with
  | some h => (Outcome.fromCache h, none)
  | none =>
    let h := resolve env s req.path
    (Outcome.fresh h, if s.cache.isSome = true then some (req.path, h) else none)

/-- ServeHTTP: the all-level TLS redirect, then the route-secrecy and
auth gate, then cache and resolution. -/
def serveHTTP (env : Env) (s : Server) (req : Request) :
    Outcome × Option (String × Handler) :=
  if checkTLSRedirectFires s req.isTLS requiredAll = true then
    (Outcome.tlsRedirect (tlsTarget s req.path), none)
  else
    match authGate env s req with
    | some o => (o, none)
    | none => servePostAuth env s req

/-- serve(): the cache is initiated (with a fresh empty map) exactly
when a time-to-live is configured. -/
def serveStart (s : Server) : Server :=
  if s.ttl.isSome = true then { s with cache := some (fun _ => none) } else s

/-- The response ultimately written for an outcome: a fired TLS
redirect is 303 see-other, a challenge is a 401 with the
WWW-Authenticate header, and handlers (cached or fresh) write whatever
their invocation writes. -/
def Outcome.response (env : Env) : Outcome → Response
  | .tlsRedirect t =>
    { status := 303, body := "", contentType := none,
      location := some t, wwwAuthenticate := none }
  | .challenge hdr =>
    { status := 401, body := "Unauthorized", contentType := none,
      location := none, wwwAuthenticate := some hdr }
  | .fromCache h => (h.invoke env).1
  | .fresh h => (h.invoke env).1

/-! ## Claim-side vocabulary -/

/-- An entry is an extension-implicit match for `name` when it is not a
directory and its name with its last extension stripped equals `name`. -/
def entryMatches (name : String) (e : Entry) : Prop :=
  e.isDir = false ∧ trimSuffix e.name (goExt e.name) = name

instance (name : String) (e : Entry) : Decidable (entryMatches name e) := by
  unfold entryMatches; infer_instance

/-- The first path segment of a request URL path: the characters
between the leading separator and the next one; `none` when the path
is not of that shape (in particular for the bare root path). -/
def firstPathSegment (p : String) : Option String :=
  match p.data with
  | c :: rest =>
    if c = '/' ∧ rest ≠ [] then some (String.mk (rest.takeWhile (fun ch => ch ≠ '/')))
    else none
  | [] => none

/-- Replace only the directory-listing collaborator of an environment
(used to state that a conclusion holds regardless of sibling files). -/
def envWithReadDir (env : Env) (rd : String → Option (List Entry)) : Env :=
  { env with fs := { env.fs with readDir := rd } }

/-! ## Helper lemmas -/

theorem findFirstMatch_some_spec (files : List Entry) (name f : String)
    (h : findFirstMatch files name = some f) :
    ∃ pre e post, files = pre ++ e :: post ∧ e.name = f ∧
      entryMatches name e ∧ ∀ e' ∈ pre, ¬ entryMatches name e' := by
  induction files with
  | nil => simp [findFirstMatch] at h
  | cons e rest ih =>
    by_cases hd : e.isDir = true
    · rw [findFirstMatch, if_pos hd] at h
      obtain ⟨pre, x, post, hsplit, hname, hm, hpre⟩ := ih h
      refine ⟨e :: pre, x, post, by simp [hsplit], hname, hm, ?_⟩
      intro e' he'
      rcases List.mem_cons.mp he' with rfl | hmem
      · intro hc; exact absurd hc.1 (by simp [hd])
      · exact hpre e' hmem
    · rw [findFirstMatch, if_neg hd] at h
      by_cases hp : trimSuffix e.name (goExt e.name) = name
      · rw [if_pos hp] at h
        refine ⟨[], e, rest, rfl, by injection h, ⟨by simpa using hd, hp⟩, by simp⟩
      · rw [if_neg hp] at h
        obtain ⟨pre, x, post, hsplit, hname, hm, hpre⟩ := ih h
        refine ⟨e :: pre, x, post, by simp [hsplit], hname, hm, ?_⟩
        intro e' he'
        rcases List.mem_cons.mp he' with rfl | hmem
        · intro hc; exact hp hc.2
        · exact hpre e' hmem

theorem findFirstMatch_none_iff (files : List Entry) (name : String) :
    findFirstMatch files name = none ↔ ∀ e ∈ files, ¬ entryMatches name e := by
  induction files with
  | nil => simp [findFirstMatch]
  | cons e rest ih =>
    by_cases hd : e.isDir = true
    · rw [findFirstMatch, if_pos hd, ih]
      constructor
      · intro h e' he'
        rcases List.mem_cons.mp he' with rfl | hmem
        · intro hc; exact absurd hc.1 (by simp [hd])
        · exact h e' hmem
      · intro h e' he'; exact h e' (List.mem_cons_of_mem _ he')
    · rw [findFirstMatch, if_neg hd]
      by_cases hp : trimSuffix e.name (goExt e.name) = name
      · rw [if_pos hp]
        constructor
        · intro h; cases h
        · intro h; exact absurd ⟨by simpa using hd, hp⟩ (h e (List.mem_cons_self e rest))
      · rw [if_neg hp, ih]
        constructor
        · intro h e' he'
          rcases List.mem_cons.mp he' with rfl | hmem
          · intro hc; exact hp hc.2
          · exact h e' hmem
        · intro h e' he'; exact h e' (List.mem_cons_of_mem _ he')

theorem fires_iff (s : Server) (b : Bool) (cond : Nat) :
    checkTLSRedirectFires s b cond = true ↔ (s.tlsRequired = cond ∧ b = false) := by
  by_cases h1 : s.tlsRequired = cond
  · by_cases h2 : b = true
    · simp [checkTLSRedirectFires, h1, h2]
    · simp only [Bool.not_eq_true] at h2
      simp [checkTLSRedirectFires, h1, h2]
  · simp [checkTLSRedirectFires, h1]

theorem authGate_none_short (env : Env) (s : Server) (req : Request)
    (hlen : ¬ 1 < req.path.length) : authGate env s req = none := by
  simp [authGate, hlen]

theorem authGate_tls (env : Env) (s : Server) (req : Request)
    (a route : String) (rest : List String)
    (hlen : 1 < req.path.length)
    (hsp : goSplit req.path '/' = a :: route :: rest)
    (hsec : (lookupSecret s route).isSome = true)
    (hfire : checkTLSRedirectFires s req.isTLS requiredSecrets = true) :
    authGate env s req = some (Outcome.tlsRedirect (tlsTarget s req.path)) := by
  simp [authGate, hlen, hsp, hsec, hfire]

theorem authGate_challenge (env : Env) (s : Server) (req : Request)
    (a route : String) (rest : List String)
    (hlen : 1 < req.path.length)
    (hsp : goSplit req.path '/' = a :: route :: rest)
    (hsec : (lookupSecret s route).isSome = true)
    (hfire : checkTLSRedirectFires s req.isTLS requiredSecrets = false)
    (hauth : checkAuth env.md5hex s req.authorization req.method req.path route = false) :
    authGate env s req = some (Outcome.challenge (challengeHeader s env.nowHex route)) := by
  simp [authGate, hlen, hsp, hsec, hfire, hauth]

theorem authGate_pass (env : Env) (s : Server) (req : Request)
    (a route : String) (rest : List String)
    (hlen : 1 < req.path.length)
    (hsp : goSplit req.path '/' = a :: route :: rest)
    (hsec : (lookupSecret s route).isSome = true)
    (hfire : checkTLSRedirectFires s req.isTLS requiredSecrets = false)
    (hauth : checkAuth env.md5hex s req.authorization req.method req.path route = true) :
    authGate env s req = none := by
  simp [authGate, hlen, hsp, hsec, hfire, hauth]

theorem authGate_cases (env : Env) (s : Server) (req : Request) :
    authGate env s req = none ∨
    (∃ a route rest,
       1 < req.path.length ∧
       goSplit req.path '/' = a :: route :: rest ∧
       (lookupSecret s route).isSome = true ∧
       ((checkTLSRedirectFires s req.isTLS requiredSecrets = true ∧
           authGate env s req = some (Outcome.tlsRedirect (tlsTarget s req.path))) ∨
        (checkTLSRedirectFires s req.isTLS requiredSecrets = false ∧
           checkAuth env.md5hex s req.authorization req.method req.path route = false ∧
           authGate env s req = some (Outcome.challenge (challengeHeader s env.nowHex route))))) := by
  by_cases hlen : 1 < req.path.length
  · rcases hsp : goSplit req.path '/' with _ | ⟨a, _ | ⟨route, rest⟩⟩
    · left; simp [authGate, hlen, hsp]
    · left; simp [authGate, hlen, hsp]
    · by_cases hsec : (lookupSecret s route).isSome = true
      · by_cases hfire : checkTLSRedirectFires s req.isTLS requiredSecrets = true
        · right
          exact ⟨a, route, rest, hlen, rfl, hsec,
            Or.inl ⟨hfire, authGate_tls env s req a route rest hlen hsp hsec hfire⟩⟩
        · simp only [Bool.not_eq_true] at hfire
          by_cases hauth : checkAuth env.md5hex s req.authorization req.method req.path route = true
          · left; exact authGate_pass env s req a route rest hlen hsp hsec hfire hauth
          · simp only [Bool.not_eq_true] at hauth
            right
            exact ⟨a, route, rest, hlen, rfl, hsec,
              Or.inr ⟨hfire, hauth,
                authGate_challenge env s req a route rest hlen hsp hsec hfire hauth⟩⟩
      · left; simp [authGate, hlen, hsp, hsec]
  · left; exact authGate_none_short env s req hlen

theorem servePostAuth_shape (env : Env) (s : Server) (req : Request) :
    (∃ h, cacheGet s req.path = some h ∧
       servePostAuth env s req = (Outcome.fromCache h, none)) ∨
    (cacheGet s req.path = none ∧
       servePostAuth env s req =
         (Outcome.fresh (resolve env s req.path),
          if s.cache.isSome = true then some (req.path, resolve env s req.path) else none)) := by
  rcases hc : cacheGet s req.path with _ | h
  · right; exact ⟨rfl, by simp [servePostAuth, hc]⟩
  · left; exact ⟨h, rfl, by simp [servePostAuth, hc]⟩

theorem serveHTTP_cases (env : Env) (s : Server) (req : Request) :
    (checkTLSRedirectFires s req.isTLS requiredAll = true ∧
       serveHTTP env s req = (Outcome.tlsRedirect (tlsTarget s req.path), none)) ∨
    (checkTLSRedirectFires s req.isTLS requiredAll = false ∧
       ((∃ o, authGate env s req = some o ∧ serveHTTP env s req = (o, none)) ∨
        (authGate env s req = none ∧ serveHTTP env s req = servePostAuth env s req))) := by
  by_cases hfire : checkTLSRedirectFires s req.isTLS requiredAll = true
  · left; exact ⟨hfire, by simp [serveHTTP, hfire]⟩
  · simp only [Bool.not_eq_true] at hfire
    right
    refine ⟨hfire, ?_⟩
    rcases hg : authGate env s req with _ | o
    · right; exact ⟨rfl, by simp [serveHTTP, hfire, hg]⟩
    · left; exact ⟨o, rfl, by simp [serveHTTP, hfire, hg]⟩

theorem hasSuffix_mono (s big small : String)
    (hb : hasSuffix s big = true)
    (hle : small.data.length ≤ big.data.length) :
    hasSuffix s small = hasSuffix big small := by
  unfold hasSuffix at hb ⊢
  by_cases h1 : big.data.length ≤ s.data.length
  · rw [if_pos h1] at hb
    have hdrop : s.data.drop (s.data.length - big.data.length) = big.data :=
      beq_iff_eq.mp hb
    rw [if_pos (le_trans hle h1), if_pos hle]
    have harith : s.data.length - small.data.length
        = (s.data.length - big.data.length) + (big.data.length - small.data.length) := by
      omega
    rw [harith, ← List.drop_drop, hdrop]
  · rw [if_neg h1] at hb; exact absurd hb (by simp)

theorem splitChar_head (sep : Char) (l : List Char) :
    ∃ t, splitChar sep l = (l.takeWhile (fun c => c ≠ sep)) :: t := by
  induction l with
  | nil => exact ⟨[], rfl⟩
  | cons c rest ih =>
    by_cases hc : c = sep
    · refine ⟨splitChar sep rest, ?_⟩
      simp [splitChar, hc, List.takeWhile_cons]
    · obtain ⟨t, ht⟩ := ih
      refine ⟨t, ?_⟩
      simp [splitChar, hc, ht, List.takeWhile_cons]

theorem goSplit_leading_slash (p : String) (cs : List Char)
    (hp : p.data = '/' :: cs) :
    ∃ t, goSplit p '/' =
      "" :: String.mk (cs.takeWhile (fun c => c ≠ '/')) :: t := by
  obtain ⟨t, ht⟩ := splitChar_head '/' cs
  refine ⟨t.map String.mk, ?_⟩
  simp [goSplit, hp, splitChar, ht]

theorem firstPathSegment_of_leading_slash (p : String) (cs : List Char)
    (hp : p.data = '/' :: cs) (hcs : cs ≠ []) :
    firstPathSegment p = some (String.mk (cs.takeWhile (fun c => c ≠ '/'))) := by
  unfold firstPathSegment
  rw [hp]
  simp [hcs]

theorem length_of_leading_slash (p : String) (cs : List Char)
    (hp : p.data = '/' :: cs) (hcs : cs ≠ []) : 1 < p.length := by
  show 1 < p.data.length
  rw [hp]
  cases cs with
  | nil => exact absurd rfl hcs
  | cons _ _ => simp

theorem redirect_suffix_excludes (s : String)
    (h : hasSuffix s ".redirect" = true) :
    hasSuffix s ".md" = false ∧ hasSuffix s ".jade" = false ∧
    hasSuffix s ".pug" = false := by
  refine ⟨?_, ?_, ?_⟩
  · rw [hasSuffix_mono s ".redirect" ".md" h (by decide)]; decide
  · rw [hasSuffix_mono s ".redirect" ".jade" h (by decide)]; decide
  · rw [hasSuffix_mono s ".redirect" ".pug" h (by decide)]; decide

theorem serveFilteredFile_redirect (env : Env) (filename : String)
    (h : hasSuffix filename ".redirect" = true) :
    serveFilteredFile env filename =
      handlerRedirect
        (match env.fs.readFile filename with
         | .ok u => u
         | .error _ => "") := by
  obtain ⟨hmd, hjade, hpug⟩ := redirect_suffix_excludes filename h
  unfold serveFilteredFile
  rw [if_neg (by simp [hmd]), if_neg (by simp [hjade, hpug]), if_pos h]
  rcases env.fs.readFile filename with e | u <;> rfl

theorem resolve_literal (env : Env) (s : Server) (pathStr : String)
    (hstat : env.fs.statIsDir (candidatePath env s pathStr) = some false) :
    resolve env s pathStr = handlerLiteralFile (candidatePath env s pathStr) := by
  unfold resolve
  rw [if_pos hstat]

theorem resolve_not_literal (env : Env) (s : Server) (pathStr : String)
    (hstat : env.fs.statIsDir (candidatePath env s pathStr) ≠ some false) :
    resolve env s pathStr = resolveDir env pathStr (candidatePath env s pathStr) := by
  unfold resolve
  rw [if_neg hstat]

theorem resolveDir_listFail (env : Env) (pathStr path : String)
    (h : env.fs.readDir (goDir path) = none) :
    resolveDir env pathStr path = handlerNotFound := by
  simp [resolveDir, h]

theorem resolveDir_found (env : Env) (pathStr path : String)
    (files : List Entry) (fname : String)
    (h : env.fs.readDir (goDir path) = some files)
    (hf : findFirstMatch files (goBase path) = some fname) :
    resolveDir env pathStr path = serveFilteredFile env (goJoin (goDir path) fname) := by
  simp [resolveDir, h, hf]

theorem resolveDir_nomatch (env : Env) (pathStr path : String)
    (files : List Entry)
    (h : env.fs.readDir (goDir path) = some files)
    (hf : findFirstMatch files (goBase path) = none) :
    resolveDir env pathStr path = resolveStat2 env pathStr path := by
  simp [resolveDir, h, hf]

theorem resolveStat2_noStat (env : Env) (pathStr path : String)
    (h : env.fs.statIsDir path = none) :
    resolveStat2 env pathStr path = handlerNotFound := by
  simp [resolveStat2, h]

theorem resolveStat2_redirect (env : Env) (pathStr path : String) (b : Bool)
    (h : env.fs.statIsDir path = some b)
    (hs : hasSuffix pathStr "/" = false) :
    resolveStat2 env pathStr path = Handler.dirRedirect (pathStr ++ "/") := by
  simp [resolveStat2, h, hs]

theorem resolveStat2_index (env : Env) (pathStr path : String) (b : Bool)
    (h : env.fs.statIsDir path = some b)
    (hs : hasSuffix pathStr "/" = true) :
    resolveStat2 env pathStr path = resolveIndex env path := by
  simp [resolveStat2, h, hs]

theorem resolveIndex_found (env : Env) (path : String)
    (files : List Entry) (fname : String)
    (h : env.fs.readDir path = some files)
    (hf : findFirstMatch files "index" = some fname) :
    resolveIndex env path = serveFilteredFile env (goJoin path fname) := by
  simp [resolveIndex, h, hf]

theorem resolveIndex_notFound (env : Env) (path : String)
    (files : List Entry)
    (h : env.fs.readDir path = some files)
    (hf : findFirstMatch files "index" = none) :
    resolveIndex env path = handlerNotFound := by
  simp [resolveIndex, h, hf]

theorem resolveIndex_listFail (env : Env) (path : String)
    (h : env.fs.readDir path = none) :
    resolveIndex env path = handlerNotFound := by
  simp [resolveIndex, h, findFirstMatch]

/-! ## Concrete fixtures -/

deriving instance DecidableEq for Except

/-- A small concrete filesystem for exercising the pipeline. -/
def sampleFS : FS where
  readlink := fun _ => none
  statIsDir := fun p =>
    if p = "/srv" then some true
    else if p = "/srv/f.txt" then some false
    else if p = "/srv/dir" then some true
    else if p = "/srv/docs" then some true
    else none
  readDir := fun p =>
    if p = "/srv" then
      some [Entry.mk "f.txt" false, Entry.mk "page.md" false,
            Entry.mk "dir" true, Entry.mk "docs" true,
            Entry.mk "go.redirect" false]
    else if p = "/srv/docs" then some [Entry.mk "index.md" false]
    else none
  readFile := fun p =>
    if p = "/srv/page.md" then Except.ok "# hi"
    else if p = "/srv/go.redirect" then Except.ok "  https://x  "
    else if p = "/srv/docs/index.md" then Except.ok "# idx"
    else Except.error ("open " ++ p ++ ": no such file or directory")

/-- A concrete environment over `sampleFS` with stand-in collaborators. -/
def sampleEnv : Env where
  fs := sampleFS
  md5hex := fun s => "h(" ++ s ++ ")"
  markdown := fun s => "<p>" ++ s ++ "</p>"
  template := fun c => "<html>" ++ c ++ "</html>"
  jade := fun _ => Except.ok "<div></div>"
  mime := fun e => if e = ".txt" then "text/plain" else ""
  nowHex := "abc123"

/-- A concrete server with one secret route and caching disabled. -/
def sampleServer : Server where
  path := "/srv"
  port := "80"
  host := "h"
  secret := [("sec", "pw")]
  ttl := none
  cache := none
  tlsPort := ""
  tlsRequired := requiredNone

/-- The sample server with enforcement level `all`. -/
def serverAll : Server := { sampleServer with tlsPort := "443", tlsRequired := requiredAll }

/-- The sample server with enforcement level `secrets`. -/
def serverSecrets : Server := { sampleServer with tlsPort := "443", tlsRequired := requiredSecrets }

/-- The sample server with caching enabled and one preexisting entry. -/
def serverCached : Server :=
  { sampleServer with
    ttl := some 5,
    cache := some (fun p => if p = "/hit" then some (Handler.internalError "boom") else none) }

/-- An insecure GET request without credentials. -/
def mkReq (p : String) : Request :=
  { path := p, method := "GET", authorization := "", isTLS := false }

/-! ## Claims -/

/-- Claim C1: for every configured root and request path, if joining the
root and the path (after at most one level of symbolic-link resolution)
names an existing regular file, ServeHTTP resolution serves that file as
a literal target; the conclusion holds for every possible directory
listing, so no extension-implicit matching is attempted regardless of
any sibling whose extension-stripped name equals the path's base name. -/
theorem claim_c1 (env : Env) (s : Server) (pathStr : String)
    (hstat : env.fs.statIsDir (candidatePath env s pathStr) = some false) :
    ∀ rd : String → Option (List Entry),
      resolve (envWithReadDir env rd) s pathStr =
        handlerLiteralFile (candidatePath env s pathStr) := by
  intro rd
  exact resolve_literal (envWithReadDir env rd) s pathStr hstat

theorem claim_c1_witness :
    sampleEnv.fs.statIsDir (candidatePath sampleEnv sampleServer "/f.txt") = some false ∧
    resolve sampleEnv sampleServer "/f.txt" = handlerLiteralFile "/srv/f.txt" :=
  ⟨by decide, claim_c1 sampleEnv sampleServer "/f.txt" (by decide) sampleFS.readDir⟩

/-- Claim C2: when the joined candidate is not an existing regular file,
a failed parent-directory listing yields the not-found handler (404);
otherwise the listing is scanned in reported order, directory entries
are skipped, and the first entry whose name with its last extension
stripped equals the candidate's base name is served as a filtered
target (a multi-dot name is stripped only after its last dot). -/
theorem claim_c2 (env : Env) (s : Server) (pathStr : String)
    (hstat : env.fs.statIsDir (candidatePath env s pathStr) ≠ some false) :
    (env.fs.readDir (goDir (candidatePath env s pathStr)) = none →
       resolve env s pathStr = handlerNotFound ∧
       ((handlerNotFound.invoke env).1).status = 404) ∧
    (∀ files fname,
       env.fs.readDir (goDir (candidatePath env s pathStr)) = some files →
       findFirstMatch files (goBase (candidatePath env s pathStr)) = some fname →
       resolve env s pathStr =
         serveFilteredFile env (goJoin (goDir (candidatePath env s pathStr)) fname) ∧
       ∃ pre e post, files = pre ++ e :: post ∧ e.name = fname ∧
         entryMatches (goBase (candidatePath env s pathStr)) e ∧
         ∀ e' ∈ pre, ¬ entryMatches (goBase (candidatePath env s pathStr)) e') ∧
    trimSuffix "a.b.c" (goExt "a.b.c") = "a.b" := by
  refine ⟨?_, ?_, by decide⟩
  · intro h
    rw [resolve_not_literal env s pathStr hstat, resolveDir_listFail env pathStr _ h]
    exact ⟨rfl, rfl⟩
  · intro files fname h hf
    rw [resolve_not_literal env s pathStr hstat,
        resolveDir_found env pathStr _ files fname h hf]
    exact ⟨rfl, findFirstMatch_some_spec files _ fname hf⟩

theorem claim_c2_witness :
    resolve sampleEnv sampleServer "/page" = serveFilteredFile sampleEnv "/srv/page.md" ∧
    resolve sampleEnv sampleServer "/nope/x" = handlerNotFound :=
  ⟨((claim_c2 sampleEnv sampleServer "/page" (by decide)).2.1
      [Entry.mk "f.txt" false, Entry.mk "page.md" false, Entry.mk "dir" true,
       Entry.mk "docs" true, Entry.mk "go.redirect" false]
      "page.md" (by decide) (by decide)).1,
   ((claim_c2 sampleEnv sampleServer "/nope/x" (by decide)).1 (by decide)).1⟩

/-- Claim C3: when the candidate is a directory with no literal or
extension-implicit match, a request path without a trailing separator
is answered with a permanent (301) redirect to the path plus "/";
with the trailing separator, the first non-directory entry of the
directory listing whose extension-stripped name equals "index" is
served as the directory index, and not-found is returned when no such
entry exists. -/
theorem claim_c3 (env : Env) (s : Server) (pathStr : String) (files : List Entry)
    (hstat : env.fs.statIsDir (candidatePath env s pathStr) = some true)
    (hlist : env.fs.readDir (goDir (candidatePath env s pathStr)) = some files)
    (hnone : findFirstMatch files (goBase (candidatePath env s pathStr)) = none) :
    (hasSuffix pathStr "/" = false →
       resolve env s pathStr = Handler.dirRedirect (pathStr ++ "/") ∧
       (((Handler.dirRedirect (pathStr ++ "/")).invoke env).1).status = 301 ∧
       (((Handler.dirRedirect (pathStr ++ "/")).invoke env).1).location =
         some (pathStr ++ "/")) ∧
    (hasSuffix pathStr "/" = true →
       ∀ files2, env.fs.readDir (candidatePath env s pathStr) = some files2 →
         (∀ fname, findFirstMatch files2 "index" = some fname →
            resolve env s pathStr =
              serveFilteredFile env (goJoin (candidatePath env s pathStr) fname) ∧
            ∃ pre e post, files2 = pre ++ e :: post ∧ e.name = fname ∧
              entryMatches "index" e ∧ ∀ e' ∈ pre, ¬ entryMatches "index" e') ∧
         ((∀ e ∈ files2, ¬ entryMatches "index" e) →
            resolve env s pathStr = handlerNotFound ∧
            ((handlerNotFound.invoke env).1).status = 404)) := by
  have hne : env.fs.statIsDir (candidatePath env s pathStr) ≠ some false := by
    rw [hstat]; simp
  have hbase : resolve env s pathStr = resolveStat2 env pathStr (candidatePath env s pathStr) := by
    rw [resolve_not_literal env s pathStr hne,
        resolveDir_nomatch env pathStr _ files hlist hnone]
  constructor
  · intro hs
    rw [hbase, resolveStat2_redirect env pathStr _ true hstat hs]
    exact ⟨rfl, rfl, rfl⟩
  · intro hs files2 h2
    rw [hbase, resolveStat2_index env pathStr _ true hstat hs]
    constructor
    · intro fname hfn
      rw [resolveIndex_found env _ files2 fname h2 hfn]
      exact ⟨rfl, findFirstMatch_some_spec files2 _ fname hfn⟩
    · intro hno
      have hf2 : findFirstMatch files2 "index" = none :=
        (findFirstMatch_none_iff files2 "index").mpr hno
      rw [resolveIndex_notFound env _ files2 h2 hf2]
      exact ⟨rfl, rfl⟩

theorem claim_c3_witness :
    resolve sampleEnv sampleServer "/dir" = Handler.dirRedirect "/dir/" ∧
    resolve sampleEnv sampleServer "/docs/" =
      serveFilteredFile sampleEnv "/srv/docs/index.md" :=
  ⟨((claim_c3 sampleEnv sampleServer "/dir"
      [Entry.mk "f.txt" false, Entry.mk "page.md" false, Entry.mk "dir" true,
       Entry.mk "docs" true, Entry.mk "go.redirect" false]
      (by decide) (by decide) (by decide)).1 (by decide)).1,
   (((claim_c3 sampleEnv sampleServer "/docs/"
      [Entry.mk "f.txt" false, Entry.mk "page.md" false, Entry.mk "dir" true,
       Entry.mk "docs" true, Entry.mk "go.redirect" false]
      (by decide) (by decide) (by decide)).2 (by decide)
      [Entry.mk "index.md" false] (by decide)).1 "index.md" (by decide)).1⟩

/-- Claim C10: when serving a directory index for a trailing-slash path,
an error from listing the directory is silently discarded and treated
exactly like an empty directory: the result is the not-found handler
(404), never an internal error — the same result any environment with
an empty listing for that directory produces. -/
theorem claim_c10 (env : Env) (s : Server) (pathStr : String) (files : List Entry)
    (hstat : env.fs.statIsDir (candidatePath env s pathStr) = some true)
    (hlist : env.fs.readDir (goDir (candidatePath env s pathStr)) = some files)
    (hnone : findFirstMatch files (goBase (candidatePath env s pathStr)) = none)
    (hslash : hasSuffix pathStr "/" = true)
    (hfail : env.fs.readDir (candidatePath env s pathStr) = none) :
    resolve env s pathStr = handlerNotFound ∧
    resolveIndex env (candidatePath env s pathStr) = handlerNotFound ∧
    (∀ env2 : Env, env2.fs.readDir (candidatePath env s pathStr) = some [] →
       resolveIndex env2 (candidatePath env s pathStr) = handlerNotFound) ∧
    ((handlerNotFound.invoke env).1).status = 404 := by
  have hne : env.fs.statIsDir (candidatePath env s pathStr) ≠ some false := by
    rw [hstat]; simp
  have hidx : resolveIndex env (candidatePath env s pathStr) = handlerNotFound :=
    resolveIndex_listFail env _ hfail
  refine ⟨?_, hidx, ?_, rfl⟩
  · rw [resolve_not_literal env s pathStr hne,
        resolveDir_nomatch env pathStr _ files hlist hnone,
        resolveStat2_index env pathStr _ true hstat hslash, hidx]
  · intro env2 h2
    exact resolveIndex_notFound env2 _ [] h2 rfl

theorem claim_c10_witness :
    resolve sampleEnv sampleServer "/dir/" = handlerNotFound :=
  (claim_c10 sampleEnv sampleServer "/dir/"
    [Entry.mk "f.txt" false, Entry.mk "page.md" false, Entry.mk "dir" true,
     Entry.mk "docs" true, Entry.mk "go.redirect" false]
    (by decide) (by decide) (by decide) (by decide) (by decide)).1

/-- Claim C7: every cached handler built for a rendered Markdown or
pug/jade page (a reader handler), an internal error, a redirect (file
.redirect or directory trailing-slash), or not-found produces the same
status, body and content type on a second invocation of the same
handler value: the reader-backed handler seeks back to offset 0 before
each write, and the others are stateless. -/
theorem claim_c7 (env : Env) (h : Handler)
    (hk : (∃ i rd, h = Handler.reader i rd) ∨ (∃ u, h = Handler.redirect u) ∨
          (∃ t, h = Handler.dirRedirect t) ∨ h = Handler.notFound ∨
          (∃ e, h = Handler.internalError e)) :
    ((h.invoke env).2.invoke env).1 = (h.invoke env).1 := by
  rcases hk with ⟨i, rd, rfl⟩ | ⟨u, rfl⟩ | ⟨t, rfl⟩ | rfl | ⟨e, rfl⟩ <;> rfl

theorem claim_c7_witness :
    (((Handler.reader "markdown x" (ByteReader.mk "ab" 0)).invoke sampleEnv).2.invoke
        sampleEnv).1 =
      ((Handler.reader "markdown x" (ByteReader.mk "ab" 0)).invoke sampleEnv).1 :=
  claim_c7 sampleEnv _ (Or.inl ⟨"markdown x", ByteReader.mk "ab" 0, rfl⟩)

/-- Claim C8: for every filtered file whose name ends in .redirect, the
renderer reads the file, trims surrounding whitespace, and builds a 308
permanent-redirect handler with the result as Location; a read failure
still yields a redirect handler for the empty read result — never the
internal-error handler. -/
theorem claim_c8 (env : Env) (filename : String)
    (h : hasSuffix filename ".redirect" = true) :
    serveFilteredFile env filename =
      handlerRedirect
        (match env.fs.readFile filename with
         | .ok u => u
         | .error _ => "") ∧
    (∀ u, env.fs.readFile filename = .ok u →
       serveFilteredFile env filename = Handler.redirect (trimSpace u) ∧
       (((Handler.redirect (trimSpace u)).invoke env).1).status = 308 ∧
       (((Handler.redirect (trimSpace u)).invoke env).1).location = some (trimSpace u)) ∧
    (∀ e, env.fs.readFile filename = .error e →
       serveFilteredFile env filename = Handler.redirect "" ∧
       ∀ m, serveFilteredFile env filename ≠ Handler.internalError m) := by
  have hmain := serveFilteredFile_redirect env filename h
  refine ⟨hmain, ?_, ?_⟩
  · intro u hu
    rw [hmain, hu]
    exact ⟨rfl, rfl, rfl⟩
  · intro e he
    rw [hmain, he]
    refine ⟨rfl, ?_⟩
    intro m
    simp [handlerRedirect]

theorem claim_c8_witness :
    serveFilteredFile sampleEnv "/srv/go.redirect" = Handler.redirect "https://x" ∧
    serveFilteredFile sampleEnv "/srv/missing.redirect" = Handler.redirect "" :=
  ⟨((claim_c8 sampleEnv "/srv/go.redirect" (by decide)).2.1
      "  https://x  " (by decide)).1,
   ((claim_c8 sampleEnv "/srv/missing.redirect" (by decide)).2.2
      "open /srv/missing.redirect: no such file or directory" (by decide)).1⟩

/-- Claim C9: for every request whose URL path has length at most one
(in particular the bare root path), the route-secrecy gate — and with
it the secrets-level TLS redirect check and Digest authentication — is
skipped entirely, and (absent an all-level TLS redirect) the request
proceeds directly to cache lookup and path resolution, even when a
secret route and secrets-level enforcement are configured. -/
theorem claim_c9 (env : Env) (s : Server) (req : Request)
    (hlen : req.path.length ≤ 1) :
    authGate env s req = none ∧
    (checkTLSRedirectFires s req.isTLS requiredAll = false →
       serveHTTP env s req = servePostAuth env s req) := by
  have hg : authGate env s req = none :=
    authGate_none_short env s req (by omega)
  refine ⟨hg, ?_⟩
  intro hfa
  simp [serveHTTP, hfa, hg]

theorem claim_c9_witness :
    authGate sampleEnv serverSecrets (mkReq "/") = none ∧
    serveHTTP sampleEnv serverSecrets (mkReq "/") =
      servePostAuth sampleEnv serverSecrets (mkReq "/") :=
  ⟨(claim_c9 sampleEnv serverSecrets (mkReq "/") (by decide)).1,
   (claim_c9 sampleEnv serverSecrets (mkReq "/") (by decide)).2 (by decide)⟩

theorem serveHTTP_tls_char (env : Env) (s : Server) (req : Request) (t : String)
    (h : (serveHTTP env s req).1 = Outcome.tlsRedirect t) :
    t = tlsTarget s req.path ∧ (serveHTTP env s req).2 = none ∧ req.isTLS = false ∧
    (s.tlsRequired = requiredAll ∨
     (s.tlsRequired = requiredSecrets ∧ ∃ a route rest,
        1 < req.path.length ∧ goSplit req.path '/' = a :: route :: rest ∧
        (lookupSecret s route).isSome = true)) := by
  rcases serveHTTP_cases env s req with ⟨hfire, heq⟩ | ⟨hfire, hrest⟩
  · obtain ⟨hreq, htls⟩ := (fires_iff s req.isTLS requiredAll).mp hfire
    have h2 : Outcome.tlsRedirect (tlsTarget s req.path) = Outcome.tlsRedirect t := by
      rw [heq] at h; exact h
    injection h2 with ht
    refine ⟨ht.symm, ?_, htls, Or.inl hreq⟩
    rw [heq]
  · rcases hrest with ⟨o, hg, heq⟩ | ⟨hg, heq⟩
    · rcases authGate_cases env s req with hgn | ⟨a, route, rest, hlen, hsp, hsec, hsub⟩
      · rw [hgn] at hg; exact Option.noConfusion hg
      · rcases hsub with ⟨hfires, hgeq⟩ | ⟨hfires, hauth, hgeq⟩
        · rw [hg] at hgeq
          injection hgeq with ho
          have h2 : o = Outcome.tlsRedirect t := by rw [heq] at h; exact h
          rw [ho] at h2
          injection h2 with ht
          obtain ⟨hreq2, htls⟩ := (fires_iff s req.isTLS requiredSecrets).mp hfires
          refine ⟨ht.symm, by rw [heq], htls,
            Or.inr ⟨hreq2, a, route, rest, hlen, hsp, hsec⟩⟩
        · rw [hg] at hgeq
          injection hgeq with ho
          have h2 : o = Outcome.tlsRedirect t := by rw [heq] at h; exact h
          rw [ho] at h2
          cases h2
    · rcases servePostAuth_shape env s req with ⟨hh, hc, hpeq⟩ | ⟨hc, hpeq⟩
      · have h2 : Outcome.fromCache hh = Outcome.tlsRedirect t := by
          rw [heq, hpeq] at h; exact h
        cases h2
      · have h2 : Outcome.fresh (resolve env s req.path) = Outcome.tlsRedirect t := by
          rw [heq, hpeq] at h; exact h
        cases h2

theorem serveHTTP_all_redirect (env : Env) (s : Server) (req : Request)
    (hreq : s.tlsRequired = requiredAll) (htls : req.isTLS = false) :
    serveHTTP env s req = (Outcome.tlsRedirect (tlsTarget s req.path), none) := by
  have hfire : checkTLSRedirectFires s req.isTLS requiredAll = true :=
    (fires_iff s req.isTLS requiredAll).mpr ⟨hreq, htls⟩
  simp [serveHTTP, hfire]

theorem serveHTTP_secrets_redirect (env : Env) (s : Server) (req : Request)
    (a route : String) (rest : List String)
    (hreq : s.tlsRequired = requiredSecrets) (htls : req.isTLS = false)
    (hlen : 1 < req.path.length)
    (hsp : goSplit req.path '/' = a :: route :: rest)
    (hsec : (lookupSecret s route).isSome = true) :
    serveHTTP env s req = (Outcome.tlsRedirect (tlsTarget s req.path), none) := by
  have hfa : checkTLSRedirectFires s req.isTLS requiredAll = false := by
    rw [← Bool.not_eq_true]
    intro hc
    obtain ⟨h1, _⟩ := (fires_iff s req.isTLS requiredAll).mp hc
    rw [hreq] at h1
    exact absurd h1 (by decide)
  have hfire : checkTLSRedirectFires s req.isTLS requiredSecrets = true :=
    (fires_iff s req.isTLS requiredSecrets).mpr ⟨hreq, htls⟩
  have hg := authGate_tls env s req a route rest hlen hsp hsec hfire
  simp [serveHTTP, hfa, hg]

/-- Claim C4: checkTLSRedirect redirects exactly the non-secure requests
selected by the enforcement level — under all, every insecure request to
any path; under secrets (for normalized paths starting with "/"), exactly
the insecure requests whose first path segment is a secret route; under
none, never; a request already on the secure channel is never redirected;
and a fired redirect responds 303 see-other to https://host+path with no
cache store and before any auth check (the outcome is the TLS redirect,
not a challenge or handler). -/
theorem claim_c4 (env : Env) (s : Server) (req : Request) :
    (s.tlsRequired = requiredAll → req.isTLS = false →
       serveHTTP env s req = (Outcome.tlsRedirect (tlsTarget s req.path), none)) ∧
    (req.isTLS = true → ∀ t, (serveHTTP env s req).1 ≠ Outcome.tlsRedirect t) ∧
    (s.tlsRequired = requiredNone → ∀ t, (serveHTTP env s req).1 ≠ Outcome.tlsRedirect t) ∧
    (s.tlsRequired = requiredSecrets → req.path.data.head? = some '/' →
       ((∃ t, (serveHTTP env s req).1 = Outcome.tlsRedirect t) ↔
         (req.isTLS = false ∧ ∃ r, firstPathSegment req.path = some r ∧
            (lookupSecret s r).isSome = true))) ∧
    (∀ t, (serveHTTP env s req).1 = Outcome.tlsRedirect t →
       t = tlsTarget s req.path ∧ (serveHTTP env s req).2 = none ∧
       (Outcome.response env (Outcome.tlsRedirect t)).status = 303 ∧
       (Outcome.response env (Outcome.tlsRedirect t)).location = some t) := by
  refine ⟨?_, ?_, ?_, ?_, ?_⟩
  · exact fun hreq htls => serveHTTP_all_redirect env s req hreq htls
  · intro htls t hc
    have h2 := (serveHTTP_tls_char env s req t hc).2.2.1
    rw [htls] at h2
    cases h2
  · intro hreq t hc
    rcases (serveHTTP_tls_char env s req t hc).2.2.2 with h1 | ⟨h1, _⟩ <;>
      · rw [hreq] at h1
        exact absurd h1 (by decide)
  · intro hreq hhead
    constructor
    · rintro ⟨t, hc⟩
      obtain ⟨ht, hsnd, htls, hcase⟩ := serveHTTP_tls_char env s req t hc
      rcases hcase with h1 | ⟨h1, a, route, rest, hlen, hsp, hsec⟩
      · rw [hreq] at h1
        exact absurd h1 (by decide)
      · rcases hd : req.path.data with _ | ⟨c, cs⟩
        · rw [hd] at hhead
          cases hhead
        · rw [hd] at hhead
          simp only [List.head?_cons, Option.some.injEq] at hhead
          subst hhead
          have hcs : cs ≠ [] := by
            intro hnil
            rw [hnil] at hd
            have hone : req.path.length = 1 := by
              show req.path.data.length = 1
              rw [hd]
              rfl
            omega
          obtain ⟨t', hsp2⟩ := goSplit_leading_slash req.path cs hd
          rw [hsp2] at hsp
          injection hsp with h1' h2'
          injection h2' with hroute hrest
          refine ⟨htls, route, ?_, hsec⟩
          rw [firstPathSegment_of_leading_slash req.path cs hd hcs, hroute]
    · rintro ⟨htls, r, hseg, hsec⟩
      rcases hd : req.path.data with _ | ⟨c, cs⟩
      · simp only [firstPathSegment, hd] at hseg
        exact Option.noConfusion hseg
      · simp only [firstPathSegment, hd] at hseg
        by_cases hcc : c = '/' ∧ cs ≠ []
        · rw [if_pos hcc] at hseg
          injection hseg with hr
          obtain ⟨hc', hcs⟩ := hcc
          subst hc'
          have hlen := length_of_leading_slash req.path cs hd hcs
          obtain ⟨t', hsp2⟩ := goSplit_leading_slash req.path cs hd
          rw [hr] at hsp2
          have hred := serveHTTP_secrets_redirect env s req "" r t'
            hreq htls hlen hsp2 hsec
          exact ⟨tlsTarget s req.path, by rw [hred]⟩
        · rw [if_neg hcc] at hseg
          exact Option.noConfusion hseg
  · intro t hc
    obtain ⟨ht, hsnd, _, _⟩ := serveHTTP_tls_char env s req t hc
    exact ⟨ht, hsnd, rfl, rfl⟩

theorem claim_c4_witness :
    serveHTTP sampleEnv serverAll (mkReq "/sec/x") =
      (Outcome.tlsRedirect "https://h/sec/x", none) ∧
    (∃ t, (serveHTTP sampleEnv serverSecrets (mkReq "/sec/x")).1 =
      Outcome.tlsRedirect t) ∧
    (∀ t, (serveHTTP sampleEnv serverSecrets
        { path := "/sec/x", method := "GET", authorization := "", isTLS := true }).1 ≠
      Outcome.tlsRedirect t) ∧
    (∀ t, (serveHTTP sampleEnv sampleServer (mkReq "/sec/x")).1 ≠
      Outcome.tlsRedirect t) :=
  ⟨(claim_c4 sampleEnv serverAll (mkReq "/sec/x")).1 rfl rfl,
   ((claim_c4 sampleEnv serverSecrets (mkReq "/sec/x")).2.2.2.1 rfl (by decide)).mpr
     ⟨rfl, "sec", by decide, by decide⟩,
   (claim_c4 sampleEnv serverSecrets _).2.1 rfl,
   (claim_c4 sampleEnv sampleServer (mkReq "/sec/x")).2.2.1 rfl⟩

theorem authGate_some_shape (env : Env) (s : Server) (req : Request) (o : Outcome)
    (hg : authGate env s req = some o) :
    (∃ t, o = Outcome.tlsRedirect t) ∨ (∃ hdr, o = Outcome.challenge hdr) := by
  rcases authGate_cases env s req with hgn | ⟨a, route, rest, _, _, _, hsub⟩
  · rw [hgn] at hg
    exact Option.noConfusion hg
  · rcases hsub with ⟨_, hgeq⟩ | ⟨_, _, hgeq⟩
    · rw [hg] at hgeq
      injection hgeq with ho
      exact Or.inl ⟨_, ho⟩
    · rw [hg] at hgeq
      injection hgeq with ho
      exact Or.inr ⟨_, ho⟩

theorem serveHTTP_shape (env : Env) (s : Server) (req : Request) :
    (∃ t, serveHTTP env s req = (Outcome.tlsRedirect t, none)) ∨
    (∃ hdr, serveHTTP env s req = (Outcome.challenge hdr, none)) ∨
    (∃ h, cacheGet s req.path = some h ∧
       serveHTTP env s req = (Outcome.fromCache h, none)) ∨
    (cacheGet s req.path = none ∧
       serveHTTP env s req =
         (Outcome.fresh (resolve env s req.path),
          if s.cache.isSome = true then some (req.path, resolve env s req.path)
          else none)) := by
  rcases serveHTTP_cases env s req with ⟨hfire, heq⟩ | ⟨hfire, hrest⟩
  · exact Or.inl ⟨_, heq⟩
  · rcases hrest with ⟨o, hg, heq⟩ | ⟨hg, heq⟩
    · rcases authGate_some_shape env s req o hg with ⟨t, rfl⟩ | ⟨hdr, rfl⟩
      · exact Or.inl ⟨t, heq⟩
      · exact Or.inr (Or.inl ⟨hdr, heq⟩)
    · rcases servePostAuth_shape env s req with ⟨h, hc, hpeq⟩ | ⟨hc, hpeq⟩
      · exact Or.inr (Or.inr (Or.inl ⟨h, hc, heq.trans hpeq⟩))
      · exact Or.inr (Or.inr (Or.inr ⟨hc, heq.trans hpeq⟩))

/-- Claim C6: with caching enabled, every terminal response — the fresh
handler of a cache miss, be it not-found, directory redirect, internal
error, literal or rendered — is stored in the cache under the request
URL path; 401 challenges and TLS redirects are never stored; with the
cache absent (no TTL configured — serve() then never initiates it), no
lookup hits and no store happens; and a cached handler for the path is
replayed (including internal-error handlers) once the TLS and auth
gates pass. -/
theorem claim_c6 (env : Env) (s : Server) (req : Request) :
    (∀ h, (serveHTTP env s req).1 = Outcome.fresh h → s.cache.isSome = true →
       (serveHTTP env s req).2 = some (req.path, h)) ∧
    (∀ hdr, (serveHTTP env s req).1 = Outcome.challenge hdr →
       (serveHTTP env s req).2 = none) ∧
    (∀ t, (serveHTTP env s req).1 = Outcome.tlsRedirect t →
       (serveHTTP env s req).2 = none) ∧
    (s.cache = none →
       (serveHTTP env s req).2 = none ∧
       ∀ h, (serveHTTP env s req).1 ≠ Outcome.fromCache h) ∧
    (s.ttl = none → serveStart s = s) ∧
    (∀ m h, s.cache = some m → m req.path = some h →
       checkTLSRedirectFires s req.isTLS requiredAll = false →
       authGate env s req = none →
       serveHTTP env s req = (Outcome.fromCache h, none)) := by
  refine ⟨?_, ?_, ?_, ?_, ?_, ?_⟩
  · intro h h1 hc
    rcases serveHTTP_shape env s req with ⟨t, heq⟩ | ⟨hdr, heq⟩ | ⟨h', hcg, heq⟩ | ⟨hcg, heq⟩
    · have h2 : Outcome.tlsRedirect t = Outcome.fresh h := by rw [heq] at h1; exact h1
      cases h2
    · have h2 : Outcome.challenge hdr = Outcome.fresh h := by rw [heq] at h1; exact h1
      cases h2
    · have h2 : Outcome.fromCache h' = Outcome.fresh h := by rw [heq] at h1; exact h1
      cases h2
    · have h2 : Outcome.fresh (resolve env s req.path) = Outcome.fresh h := by
        rw [heq] at h1; exact h1
      injection h2 with hh
      rw [heq]
      show (if s.cache.isSome = true then some (req.path, resolve env s req.path)
            else none) = some (req.path, h)
      rw [if_pos hc, hh]
  · intro hdr h1
    rcases serveHTTP_shape env s req with ⟨t, heq⟩ | ⟨hdr2, heq⟩ | ⟨h', hcg, heq⟩ | ⟨hcg, heq⟩
    · have h2 : Outcome.tlsRedirect t = Outcome.challenge hdr := by rw [heq] at h1; exact h1
      cases h2
    · rw [heq]
    · have h2 : Outcome.fromCache h' = Outcome.challenge hdr := by rw [heq] at h1; exact h1
      cases h2
    · have h2 : Outcome.fresh (resolve env s req.path) = Outcome.challenge hdr := by
        rw [heq] at h1; exact h1
      cases h2
  · intro t h1
    rcases serveHTTP_shape env s req with ⟨t2, heq⟩ | ⟨hdr, heq⟩ | ⟨h', hcg, heq⟩ | ⟨hcg, heq⟩
    · rw [heq]
    · have h2 : Outcome.challenge hdr = Outcome.tlsRedirect t := by rw [heq] at h1; exact h1
      cases h2
    · have h2 : Outcome.fromCache h' = Outcome.tlsRedirect t := by rw [heq] at h1; exact h1
      cases h2
    · have h2 : Outcome.fresh (resolve env s req.path) = Outcome.tlsRedirect t := by
        rw [heq] at h1; exact h1
      cases h2
  · intro hcn
    have hcg : cacheGet s req.path = none := by simp [cacheGet, hcn]
    constructor
    · rcases serveHTTP_shape env s req with ⟨t, heq⟩ | ⟨hdr, heq⟩ | ⟨h', hc', heq⟩ | ⟨hc', heq⟩
      · rw [heq]
      · rw [heq]
      · rw [hcg] at hc'
        exact Option.noConfusion hc'
      · rw [heq]
        show (if s.cache.isSome = true then some (req.path, resolve env s req.path)
              else none) = none
        simp [hcn]
    · intro h h1
      rcases serveHTTP_shape env s req with ⟨t, heq⟩ | ⟨hdr, heq⟩ | ⟨h', hc', heq⟩ | ⟨hc', heq⟩
      · have h2 : Outcome.tlsRedirect t = Outcome.fromCache h := by rw [heq] at h1; exact h1
        cases h2
      · have h2 : Outcome.challenge hdr = Outcome.fromCache h := by rw [heq] at h1; exact h1
        cases h2
      · rw [hcg] at hc'
        exact Option.noConfusion hc'
      · have h2 : Outcome.fresh (resolve env s req.path) = Outcome.fromCache h := by
          rw [heq] at h1; exact h1
        cases h2
  · intro ht
    simp [serveStart, ht]
  · intro m h hm hmh hfa hg
    simp [serveHTTP, hfa, hg, servePostAuth, cacheGet, hm, hmh]

theorem claim_c6_witness :
    serveHTTP sampleEnv serverCached (mkReq "/hit") =
      (Outcome.fromCache (Handler.internalError "boom"), none) ∧
    (serveHTTP sampleEnv serverCached (mkReq "/f.txt")).2 =
      some ("/f.txt", handlerLiteralFile "/srv/f.txt") ∧
    (serveHTTP sampleEnv sampleServer (mkReq "/f.txt")).2 = none :=
  ⟨(claim_c6 sampleEnv serverCached (mkReq "/hit")).2.2.2.2.2 _
      (Handler.internalError "boom") rfl (by decide) (by decide) (by decide),
   (claim_c6 sampleEnv serverCached (mkReq "/f.txt")).1
      (handlerLiteralFile "/srv/f.txt") (by decide) rfl,
   ((claim_c6 sampleEnv sampleServer (mkReq "/f.txt")).2.2.2.1 rfl).1⟩

theorem strAppend_assoc (a b c : String) : a ++ b ++ c = a ++ (b ++ c) := by
  rcases a with ⟨la⟩
  rcases b with ⟨lb⟩
  rcases c with ⟨lc⟩
  show String.mk (la ++ lb ++ lc) = String.mk (la ++ (lb ++ lc))
  rw [List.append_assoc]

theorem strJoin_six (sep a b c d e f : String) :
    strJoin sep [a, b, c, d, e, f] =
      a ++ sep ++ b ++ sep ++ c ++ sep ++ d ++ sep ++ e ++ sep ++ f := by
  simp [strJoin, strAppend_assoc]

theorem digestOK_iff (md5hex : String → String) (s : Server)
    (rest method pathStr route : String) :
    digestOK md5hex s rest method pathStr route = true ↔
      (parseHeader rest "realm" = s.host ++ "-" ++ route ∧
       parseHeader rest "response" =
         md5hex (md5hex (parseHeader rest "username" ++ ":" ++
             (s.host ++ "-" ++ route) ++ ":" ++ lookupSecretD s route) ++ ":" ++
           parseHeader rest "nonce" ++ ":" ++ parseHeader rest "nc" ++ ":" ++
           parseHeader rest "cnonce" ++ ":" ++ parseHeader rest "qop" ++ ":" ++
           md5hex (method ++ ":" ++ pathStr))) := by
  by_cases hrealm : parseHeader rest "realm" = s.host ++ "-" ++ route
  · constructor
    · intro h
      refine ⟨hrealm, ?_⟩
      unfold digestOK at h
      rw [if_neg (by simpa using hrealm)] at h
      have h2 := (beq_iff_eq.mp h).symm
      rw [strJoin_six] at h2
      exact h2
    · rintro ⟨_, hresp⟩
      unfold digestOK
      rw [if_neg (by simpa using hrealm)]
      refine beq_iff_eq.mpr ?_
      rw [strJoin_six]
      exact hresp.symm
  · constructor
    · intro h
      unfold digestOK at h
      rw [if_pos (by simpa using hrealm)] at h
      exact absurd h (by simp)
    · rintro ⟨h1, _⟩
      exact absurd h1 hrealm

theorem checkAuth_digest (md5hex : String → String) (s : Server)
    (auth rest method pathStr route : String)
    (hsp : splitN2 auth ' ' = ["Digest", rest]) :
    checkAuth md5hex s auth method pathStr route =
      digestOK md5hex s rest method pathStr route := by
  unfold checkAuth
  rw [hsp]
  simp

theorem checkAuth_noDigest (md5hex : String → String) (s : Server)
    (auth method pathStr route : String)
    (hsp : ∀ rest, splitN2 auth ' ' ≠ ["Digest", rest]) :
    checkAuth md5hex s auth method pathStr route = false := by
  unfold checkAuth
  rcases h2 : splitN2 auth ' ' with _ | ⟨x, _ | ⟨y, _ | ⟨z, zs⟩⟩⟩
  · simp
  · simp
  · by_cases hx : x = "Digest"
    · subst hx
      exact absurd h2 (hsp y)
    · simp [hx]
  · simp [Nat.succ_ne_self]

/-- Claim C5: checkAuth accepts exactly the requests whose Authorization
header uses the Digest scheme, whose realm parameter is host-route and
whose response parameter is MD5(HA1:nonce:nc:cnonce:qop:HA2) with
HA1 = MD5(username:realm:secret) and HA2 = MD5(method:path) — the
username is not checked against any store, only the digest computed
from it and the route secret; and on failure for a secret route a fresh
401 challenge carrying the timestamp-derived nonce is sent via
WWW-Authenticate. -/
theorem claim_c5 :
    (∀ (md5hex : String → String) (s : Server) (auth method pathStr route : String),
       checkAuth md5hex s auth method pathStr route = true ↔
         (∃ rest, splitN2 auth ' ' = ["Digest", rest] ∧
           parseHeader rest "realm" = s.host ++ "-" ++ route ∧
           parseHeader rest "response" =
             md5hex (md5hex (parseHeader rest "username" ++ ":" ++
                 (s.host ++ "-" ++ route) ++ ":" ++ lookupSecretD s route) ++ ":" ++
               parseHeader rest "nonce" ++ ":" ++ parseHeader rest "nc" ++ ":" ++
               parseHeader rest "cnonce" ++ ":" ++ parseHeader rest "qop" ++ ":" ++
               md5hex (method ++ ":" ++ pathStr)))) ∧
    (∀ (env : Env) (s : Server) (req : Request) (a route : String) (rest : List String),
       1 < req.path.length →
       goSplit req.path '/' = a :: route :: rest →
       (lookupSecret s route).isSome = true →
       checkTLSRedirectFires s req.isTLS requiredAll = false →
       checkTLSRedirectFires s req.isTLS requiredSecrets = false →
       checkAuth env.md5hex s req.authorization req.method req.path route = false →
       serveHTTP env s req =
         (Outcome.challenge (challengeHeader s env.nowHex route), none) ∧
       (Outcome.response env
         (Outcome.challenge (challengeHeader s env.nowHex route))).status = 401 ∧
       (Outcome.response env
         (Outcome.challenge (challengeHeader s env.nowHex route))).wwwAuthenticate =
           some (challengeHeader s env.nowHex route)) := by
  constructor
  · intro md5hex s auth method pathStr route
    constructor
    · intro h
      by_cases hd : ∃ rest, splitN2 auth ' ' = ["Digest", rest]
      · obtain ⟨rest, hsp⟩ := hd
        rw [checkAuth_digest md5hex s auth rest method pathStr route hsp] at h
        obtain ⟨h1, h2⟩ := (digestOK_iff md5hex s rest method pathStr route).mp h
        exact ⟨rest, hsp, h1, h2⟩
      · push_neg at hd
        rw [checkAuth_noDigest md5hex s auth method pathStr route hd] at h
        exact absurd h (by simp)
    · rintro ⟨rest, hsp, h1, h2⟩
      rw [checkAuth_digest md5hex s auth rest method pathStr route hsp]
      exact (digestOK_iff md5hex s rest method pathStr route).mpr ⟨h1, h2⟩
  · intro env s req a route rest hlen hsp hsec hfa hfires hauth
    have hg := authGate_challenge env s req a route rest hlen hsp hsec hfires hauth
    refine ⟨?_, rfl, rfl⟩
    simp [serveHTTP, hfa, hg]

/-- A well-formed Digest Authorization header for the sample secret
route, valid under the stand-in digest function of `sampleEnv`. -/
def sampleAuthHeader : String :=
  "Digest realm=\"h-sec\", username=u, nonce=n, nc=1, cnonce=c, qop=auth, response=h(h(u:h-sec:pw):n:1:c:auth:h(GET:/sec/x))"

theorem claim_c5_witness :
    checkAuth sampleEnv.md5hex sampleServer sampleAuthHeader "GET" "/sec/x" "sec" = true ∧
    serveHTTP sampleEnv serverSecrets
        { path := "/sec/x", method := "GET", authorization := "", isTLS := true } =
      (Outcome.challenge (challengeHeader serverSecrets sampleEnv.nowHex "sec"), none) :=
  ⟨(claim_c5.1 sampleEnv.md5hex sampleServer sampleAuthHeader "GET" "/sec/x" "sec").mpr
     ⟨"realm=\"h-sec\", username=u, nonce=n, nc=1, cnonce=c, qop=auth, response=h(h(u:h-sec:pw):n:1:c:auth:h(GET:/sec/x))",
      by decide, by decide, by decide⟩,
   (claim_c5.2 sampleEnv serverSecrets
      { path := "/sec/x", method := "GET", authorization := "", isTLS := true }
      "" "sec" ["x"] (by decide) (by decide) (by decide) (by decide) (by decide)
      (by decide)).1⟩
